import Mathlib

/-
  Verification development for a VS Code extension that generates commit
  messages via an external CLI and conditionally auto-pushes.

  The definitions below are a shallow embedding of the extension's
  TypeScript source:
    * diffCollector.ts   : truncateDiffText, collectDiffForPrompt
    * codexCli.ts        : normalizeGeneratedMessage, the close-handler
                           outcome classification, and the candidate loop of
                           generateCommitMessageWithCodex
    * extension.ts       : firstLine, handleCommitEvent (the commit-event
                           gate) and handleGenerateCommand (the orchestrator)
    * prompt.ts          : buildCommitMessagePrompt
    * state.ts           : PendingGeneratedCommit

  JavaScript strings are modelled as Lean strings (lists of characters);
  effectful collaborators (git lookups, the spawned subprocess, settings)
  are modelled as explicit environment records whose fields hold the
  outcome each collaborator would produce, so each handler becomes a pure
  function from such an environment to a record of its observable actions.
-/

/-- Character class of JavaScript's `String.prototype.trim` (WhiteSpace and
LineTerminator code points). -/
def isJsWhitespace (c : Char) : Bool :=
  c == ' ' || c == '\t' || c == '\n' || c == '\r' ||
  c.val == 0x0B || c.val == 0x0C || c.val == 0xA0 || c.val == 0xFEFF ||
  c.val == 0x1680 || (decide (0x2000 ≤ c.val) && decide (c.val ≤ 0x200A)) ||
  c.val == 0x2028 || c.val == 0x2029 || c.val == 0x202F || c.val == 0x205F ||
  c.val == 0x3000

/-- JavaScript `s.trim()`: drop leading and trailing whitespace. -/
def trimJS (s : String) : String :=
  String.mk (((s.data.dropWhile isJsWhitespace).reverse.dropWhile isJsWhitespace).reverse)

/-- Split a character list at each newline character (the `\n` part of the
JavaScript split pattern `/\r?\n/g`). -/
def splitOnNL : List Char → List (List Char)
  | [] => [[]]
  | c :: rest =>
    let r := splitOnNL rest
    if c == '\n' then [] :: r
    else
      match r with
      | [] => [[c]]
      | l :: ls => (c :: l) :: ls

/-- Remove one trailing carriage return from a piece that was followed by a
newline split point (the optional `\r?` of `/\r?\n/g`). -/
def dropTrailingCR (l : List Char) : List Char :=
  match l.reverse with
  | c :: rest => if c == '\r' then rest.reverse else l
  | [] => l

/-- Apply `dropTrailingCR` to every piece except the last one (only pieces
followed by a `\n` had their `\r` consumed by the pattern `/\r?\n/g`). -/
def stripCRBeforeSplits : List (List Char) → List (List Char)
  | [] => []
  | [l] => [l]
  | l :: ls => dropTrailingCR l :: stripCRBeforeSplits ls

/-- JavaScript `s.split(/\r?\n/g)`. -/
def linesJS (s : String) : List String :=
  (stripCRBeforeSplits (splitOnNL s.data)).map String.mk

/-- `firstLine` from extension.ts: `text.split(/\r?\n/g)[0]?.trim() ?? ''`. -/
def firstLineJS (text : String) : String :=
  trimJS ((linesJS text).headD "")

/-! ## Diff collector (diffCollector.ts) -/

/-- The fixed truncation marker appended by `truncateDiffText`
(the template literal infix between the sliced text and the end). -/
def truncationMarker : String := "\n\n[TRUNCATED]"

/-- Result record of `truncateDiffText`. -/
structure TruncateResult where
  text : String
  wasTruncated : Bool
deriving DecidableEq, Repr

/-- `truncateDiffText` from diffCollector.ts: if the text fits the budget it
is returned unchanged, otherwise it is sliced at the budget boundary
(`diffText.slice(0, maxChars)`) and the marker appended. -/
def truncateDiffText (diffText : String) (maxChars : Nat) : TruncateResult :=
  if diffText.length ≤ maxChars then
    { text := diffText, wasTruncated := false }
  else
    { text := String.mk (diffText.data.take maxChars) ++ truncationMarker,
      wasTruncated := true }

/-- `DiffCollectResult` from diffCollector.ts. -/
structure DiffCollectResult where
  diffText : String
  trackedDiff : String
  untrackedFiles : List String
  wasTruncated : Bool
deriving DecidableEq, Repr

/-- `collectDiffForPrompt` from diffCollector.ts, after the two effectful
reads have resolved: `trackedDiff` is the stdout of the tracked-diff git
invocation and `untrackedFiles` the effective untracked list (empty when
`includeUntracked` is false or the listing failed). -/
def collectDiffForPrompt (trackedDiff : String) (untrackedFiles : List String)
    (maxChars : Nat) : DiffCollectResult :=
  let sections : List String :=
    (if (trimJS trackedDiff).length > 0 then
      ["## Tracked Diff\n" ++ trimJS trackedDiff]
     else []) ++
    (if untrackedFiles.length > 0 then
      ["## Untracked Files\n" ++
        String.intercalate "\n" (untrackedFiles.map (fun file => "- " ++ file))]
     else [])
  let combined := String.intercalate "\n\n" sections
  if combined = "" then
    { diffText := "", trackedDiff := trackedDiff,
      untrackedFiles := untrackedFiles, wasTruncated := false }
  else
    let t := truncateDiffText combined maxChars
    { diffText := t.text, trackedDiff := trackedDiff,
      untrackedFiles := untrackedFiles, wasTruncated := t.wasTruncated }

/-! ## External generator client (codexCli.ts) -/

/-- The `CodexCliErrorCode` union from codexCli.ts. -/
inductive CodexCliErrorCode where
  | notFound
  | timeout
  | modelAccess
  | processFailed
  | parseFailed
  | emptyResponse
deriving DecidableEq, Repr

/-- The `CodexCliError` class from codexCli.ts: a tagged error with a
human-readable message and optional diagnostic detail. -/
structure CodexCliError where
  code : CodexCliErrorCode
  message : String
  details : Option String := none
deriving DecidableEq, Repr

/-- The quote characters stripped by the regular expression in
`normalizeGeneratedMessage` (double quote, single quote, backtick). -/
def isQuoteChar (c : Char) : Bool :=
  c == '"' || c == '\'' || c == '`'

/-- The effect of `replace` with the pattern matching a run of quote
characters anchored at the start or at the end of the string: both boundary
runs are removed entirely. -/
def stripQuoteRuns (s : String) : String :=
  String.mk (((s.data.dropWhile isQuoteChar).reverse.dropWhile isQuoteChar).reverse)

/-- `normalizeGeneratedMessage` from codexCli.ts: take the first line that is
non-blank after trimming, strip the boundary quote runs, and trim again. -/
def normalizeGeneratedMessage (raw : String) : String :=
  let firstNonBlank :=
    (((linesJS raw).map trimJS).find? (fun line => decide (0 < line.length))).getD ""
  trimJS (stripQuoteRuns firstNonBlank)

/-- `tail` from codexCli.ts: the last `maxChars` characters of the text. -/
def tailJS (text : String) (maxChars : Nat) : String :=
  if text.length ≤ maxChars then text
  else String.mk (text.data.drop (text.data.length - maxChars))

/-- `s.includes(pat)` on JavaScript strings. -/
def containsSubstring (s pat : String) : Bool :=
  decide (2 ≤ (s.splitOn pat).length)

/-- `isModelAccessError` from codexCli.ts. -/
def isModelAccessError (text : String) : Bool :=
  let lowered := text.toLower
  containsSubstring lowered "does not exist or you do not have access" ||
  containsSubstring lowered "do not have access to it"

/-- The outcome classification performed by the `close` handler of the
spawned subprocess in `generateCommitMessageWithCodex` (codexCli.ts), once
the stream has been consumed: `timedOut` is the timeout flag set by the
timer before killing the child, `code` the exit code (`none` models a null
exit code after a signal kill), `stderrRaw`/`stdoutRaw` the accumulated
output, and `lastAgentMessage` the text of the last completed
`agent_message` event observed by the streaming parser. -/
def classifyCloseOutcome (timedOut : Bool) (timeoutMs : Nat) (model : String)
    (code : Option Int) (stderrRaw stdoutRaw : String)
    (lastAgentMessage : Option String) : Except CodexCliError String :=
  if timedOut then
    Except.error
      { code := CodexCliErrorCode.timeout,
        message := "Codex generation timed out after " ++ toString timeoutMs ++ " ms." }
  else if code ≠ some 0 then
    let combined := stderrRaw ++ "\n" ++ stdoutRaw
    if isModelAccessError combined then
      Except.error
        { code := CodexCliErrorCode.modelAccess,
          message := "Model access error for \"" ++ model ++ "\".",
          details := some (tailJS combined 4000) }
    else
      Except.error
        { code := CodexCliErrorCode.processFailed,
          message := "Codex CLI exited with code " ++
            (match code with
             | some n => toString n
             | none => "null") ++ ".",
          details := some (tailJS combined 4000) }
  else
    match lastAgentMessage with
    | none =>
      Except.error
        { code := CodexCliErrorCode.parseFailed,
          message := "No agent message was found in Codex JSON output." }
    | some raw =>
      let normalized := normalizeGeneratedMessage raw
      if normalized = "" then
        Except.error
          { code := CodexCliErrorCode.emptyResponse,
            message := "Generated message is empty after normalization." }
      else Except.ok normalized

/-- The candidate loop of `generateCommitMessageWithCodex` in the
multi-candidate variant of codexCli.ts: `run` models
`runCodexWithCommand` for one candidate path, `acc` the mutable
`lastNotFoundError` variable. A `not-found` failure records the error and
falls through to the next candidate; any other failure is rethrown at
once; when the candidate list is exhausted, the recorded `not-found` error
(if any) is thrown, otherwise the fallback `not-found` error naming the
configured path. -/
def tryCandidates (run : String → Except CodexCliError String)
    (configuredPath : String) :
    List String → Option CodexCliError → Except CodexCliError String
  | [], acc =>
    match acc with
    | some e => Except.error e
    | none =>
      Except.error
        { code := CodexCliErrorCode.notFound,
          message := "Codex CLI was not found at \"" ++ configuredPath ++ "\".",
          details := some "No executable candidate could be resolved." }
  | c :: rest, _acc =>
    match run c with
    | Except.ok m => Except.ok m
    | Except.error e =>
      if e.code = CodexCliErrorCode.notFound then
        tryCandidates run configuredPath rest (some e)
      else Except.error e

/-- `generateCommitMessageWithCodex` (multi-candidate variant): try the
prioritized candidate list in order. The candidate list built by
`buildCommandCandidates` is filesystem- and platform-dependent, so it is
taken here as an explicit argument. -/
def generateCommitMessageWithCodex (run : String → Except CodexCliError String)
    (configuredPath : String) (candidates : List String) :
    Except CodexCliError String :=
  tryCandidates run configuredPath candidates none

/-- Removal of at most one leading and one trailing quote character,
written from the spec claim's words: one layer of leading/trailing quote
characters is stripped. -/
def stripOneQuoteLayer (s : String) : String :=
  let afterLead :=
    match s.data with
    | c :: rest => if isQuoteChar c then rest else s.data
    | [] => []
  let afterTrail :=
    match afterLead.reverse with
    | c :: rest => if isQuoteChar c then rest.reverse else afterLead
    | [] => []
  String.mk afterTrail

/-- Modelled from the spec claim's words (not from the code), for
comparison: "the normalized success result is obtained by stripping
surrounding whitespace, stripping one layer of leading/trailing quote
characters, and returning only the first non-blank line of that text". -/
def claimNormalize (raw : String) : String :=
  let stripped := stripOneQuoteLayer (trimJS raw)
  (((linesJS stripped).map trimJS).find? (fun line => decide (0 < line.length))).getD ""

/-- First non-blank line (each line trimmed) of a list of lines; blank
lines are skipped, and the empty string is returned when every line is
blank. Written for the amended normalization description. -/
def firstNonBlankTrimmedLine : List String → String
  | [] => ""
  | l :: rest => if trimJS l = "" then firstNonBlankTrimmedLine rest else trimJS l

/-- Drop every leading quote character from a character list. -/
def dropLeadingQuotes : List Char → List Char
  | [] => []
  | c :: rest => if isQuoteChar c then dropLeadingQuotes rest else c :: rest

/-- Strip all quote characters from both ends of a string (leading first,
then, on the reversed remainder, trailing). Written for the amended
normalization description. -/
def stripQuotesBothEnds (s : String) : String :=
  String.mk ((dropLeadingQuotes ((dropLeadingQuotes s.data).reverse)).reverse)

/-- The amended normalization description, written independently of
`normalizeGeneratedMessage`: the first non-blank line of the text with
each line trimmed, then all leading and trailing quote characters
stripped, then trimmed again. -/
def amendedNormalize (raw : String) : String :=
  trimJS (stripQuotesBothEnds (firstNonBlankTrimmedLine (linesJS raw)))

/-! ## Pending state (state.ts) and commit-event gate (extension.ts) -/

/-- `PendingGeneratedCommit` from state.ts. -/
structure PendingGeneratedCommit where
  message : String
  createdAt : Nat
deriving DecidableEq, Repr

/-- A commit object as returned by the git extension's `getCommit`. -/
structure GitCommitM where
  hash : String
  message : String
deriving DecidableEq, Repr

/-- The git collaborator surface used by `handleCommitEvent`: the outcome of
`repository.getCommit('HEAD')`, the fields of `repository.state.HEAD`
(`name` and `commit`), and the outcome of `repository.getCommit(hash)` for
the fallback lookup. -/
structure RepoGitEnv where
  getCommitHEAD : Except String GitCommitM
  stateHEADname : Option String
  stateHEADcommit : Option String
  getCommitByHash : String → Except String GitCommitM

/-- Environment of one `handleCommitEvent` invocation: the pending entry for
the repository, whether the per-repository in-flight guard is already held,
the git collaborator, and the configured push remote and branch. -/
structure GateEnv where
  pending : Option PendingGeneratedCommit
  inFlight : Bool
  git : RepoGitEnv
  pushRemote : String
  pushBranch : String

/-- Observable outcome of one `handleCommitEvent` invocation: whether
`repository.push` was invoked and with which arguments
(remote, branch, setUpstream), and the pending entry and in-flight guard
for this repository after the invocation returns. -/
structure GateResult where
  pushInvoked : Bool
  pushArgs : Option (String × String × Bool)
  pendingAfter : Option PendingGeneratedCommit
  inFlightAfter : Bool
deriving DecidableEq, Repr

/-- The message and branch comparison of `handleCommitEvent`: skip when the
first line of the latest commit's message differs from the trimmed pending
message, skip when the current branch name (empty when HEAD has no name)
differs from the configured target branch, otherwise push to the
configured remote and branch with `setUpstream = false`. Returns
(push invoked, push arguments). -/
def checkAndPush (env : GateEnv) (pending : PendingGeneratedCommit)
    (latest : GitCommitM) : Bool × Option (String × String × Bool) :=
  let latestMessage := firstLineJS latest.message
  if latestMessage ≠ trimJS pending.message then (false, none)
  else
    let currentBranchName := env.git.stateHEADname.getD ""
    if currentBranchName ≠ env.pushBranch then (false, none)
    else (true, some (env.pushRemote, env.pushBranch, false))

/-- The body of the `try` block of `handleCommitEvent`: resolve the latest
commit (`getCommit('HEAD')`, falling back to the last-known head hash; an
unavailable hash or a failed fallback lookup leads to no push), then apply
the message and branch checks. A push failure is caught by the outer
`catch` and does not change what was invoked. -/
def gateBody (env : GateEnv) (pending : PendingGeneratedCommit) :
    Bool × Option (String × String × Bool) :=
  match env.git.getCommitHEAD with
  | Except.ok latest => checkAndPush env pending latest
  | Except.error _ =>
    match env.git.stateHEADcommit with
    | none => (false, none)
    | some h =>
      match env.git.getCommitByHash h with
      | Except.ok latest => checkAndPush env pending latest
      | Except.error _ => (false, none)

/-- `handleCommitEvent` from extension.ts: return immediately when there is
no pending entry; return immediately when the in-flight guard is already
held; otherwise acquire the guard, run the gate body, and in the `finally`
clause clear the pending entry and release the guard. -/
def handleCommitEvent (env : GateEnv) : GateResult :=
  match env.pending with
  | none =>
    { pushInvoked := false, pushArgs := none,
      pendingAfter := none, inFlightAfter := env.inFlight }
  | some pending =>
    if env.inFlight then
      { pushInvoked := false, pushArgs := none,
        pendingAfter := some pending, inFlightAfter := true }
    else
      let b := gateBody env pending
      { pushInvoked := b.1, pushArgs := b.2,
        pendingAfter := none, inFlightAfter := false }

/-- The latest-commit resolution of `handleCommitEvent` in isolation:
`getCommit('HEAD')` when it succeeds, otherwise `getCommit` on the
last-known head hash; `none` when no commit can be resolved. -/
def resolveLatestCommit (g : RepoGitEnv) : Option GitCommitM :=
  match g.getCommitHEAD with
  | Except.ok c => some c
  | Except.error _ =>
    match g.stateHEADcommit with
    | none => none
    | some h =>
      match g.getCommitByHash h with
      | Except.ok c => some c
      | Except.error _ => none

/-- The gate state seen by a commit notification that arrives after a
previous `handleCommitEvent` invocation has returned: same repository,
pending entry and guard as left by the previous invocation. -/
def gateEnvAfter (env : GateEnv) : GateEnv :=
  { env with
    pending := (handleCommitEvent env).pendingAfter,
    inFlight := (handleCommitEvent env).inFlightAfter }

/-! ## Prompt builder (prompt.ts) and orchestrator (extension.ts) -/

/-- `buildCommitMessagePrompt` from prompt.ts. -/
def buildCommitMessagePrompt (diffText : String) : String :=
  String.intercalate "\n"
    [ "You generate git commit messages.",
      "Create a single commit message line from the provided diff.",
      "",
      "Strict output rules:",
      "- Output exactly one line.",
      "- Japanese only.",
      "- 30 to 50 characters.",
      "- No markdown.",
      "- No quotes.",
      "- No bullets.",
      "- No prefixes like feat/fix/chore.",
      "- Focus on concrete code changes.",
      "",
      "Return only the final commit message line.",
      "",
      "<diff>",
      diffText,
      "</diff>" ]

/-- Environment of one `handleGenerateCommand` invocation: whether a target
repository was resolved, the pending entry already recorded for it, the
outcomes of diff collection, generation, staging and committing, the
relevant settings, and the gate environment for the final
`handleCommitEvent` call. -/
structure GenEnv where
  repoResolved : Bool
  pendingBefore : Option PendingGeneratedCommit
  diffOutcome : Except String DiffCollectResult
  genOutcome : Except CodexCliError String
  now : Nat
  autoCommitAfterGenerate : Bool
  stageOutcome : Except String Unit
  commitOutcome : Except String Unit
  inFlight : Bool
  git : RepoGitEnv
  pushRemote : String
  pushBranch : String

/-- Observable outcome of one `handleGenerateCommand` invocation: the prompt
handed to the generator (`none` when the prompt builder was never
reached), whether the generator was invoked, the pending entry for the
repository afterwards, whether a commit was performed, and whether the
gate invoked a push. -/
structure GenResult where
  prompt : Option String
  generatorInvoked : Bool
  pendingAfter : Option PendingGeneratedCommit
  committed : Bool
  pushInvoked : Bool
deriving Repr

/-- `handleGenerateCommand` from extension.ts: resolve the repository,
collect the diff (stop on failure), stop when the composed diff is blank
after trimming, build the prompt, invoke the generator, record the
generated message as pending, optionally stage and commit, then run the
commit-event gate; the `catch` clause clears the pending entry on any
failure of generation, staging or committing. -/
def handleGenerateCommand (env : GenEnv) : GenResult :=
  if !env.repoResolved then
    { prompt := none, generatorInvoked := false,
      pendingAfter := env.pendingBefore, committed := false, pushInvoked := false }
  else
    match env.diffOutcome with
    | Except.error _ =>
      { prompt := none, generatorInvoked := false,
        pendingAfter := env.pendingBefore, committed := false, pushInvoked := false }
    | Except.ok diffResult =>
      if trimJS diffResult.diffText = "" then
        { prompt := none, generatorInvoked := false,
          pendingAfter := env.pendingBefore, committed := false, pushInvoked := false }
      else
        let prompt := buildCommitMessagePrompt diffResult.diffText
        match env.genOutcome with
        | Except.error _ =>
          { prompt := some prompt, generatorInvoked := true,
            pendingAfter := none, committed := false, pushInvoked := false }
        | Except.ok message =>
          let pendingSet : Option PendingGeneratedCommit :=
            some { message := message, createdAt := env.now }
          if !env.autoCommitAfterGenerate then
            { prompt := some prompt, generatorInvoked := true,
              pendingAfter := pendingSet, committed := false, pushInvoked := false }
          else
            match env.stageOutcome with
            | Except.error _ =>
              { prompt := some prompt, generatorInvoked := true,
                pendingAfter := none, committed := false, pushInvoked := false }
            | Except.ok _ =>
              match env.commitOutcome with
              | Except.error _ =>
                { prompt := some prompt, generatorInvoked := true,
                  pendingAfter := none, committed := false, pushInvoked := false }
              | Except.ok _ =>
                let g := handleCommitEvent
                  { pending := pendingSet, inFlight := env.inFlight,
                    git := env.git, pushRemote := env.pushRemote,
                    pushBranch := env.pushBranch }
                { prompt := some prompt, generatorInvoked := true,
                  pendingAfter := g.pendingAfter, committed := true,
                  pushInvoked := g.pushInvoked }

/-! ## Concrete environments used by the witnesses and counterexamples -/

/-- A git collaborator whose HEAD lookup succeeds with a commit whose
message's first line matches the pending message below, on branch `main`. -/
def gitW : RepoGitEnv :=
  { getCommitHEAD := Except.ok { hash := "h1", message := "fix stuff\nbody" },
    stateHEADname := some "main",
    stateHEADcommit := some "h1",
    getCommitByHash := fun _ => Except.error "" }

/-- A pending entry whose message matches the commit of `gitW`. -/
def pW : PendingGeneratedCommit := { message := "fix stuff", createdAt := 0 }

/-- Gate environment with a matching pending entry, matching branch, and a
free in-flight guard. -/
def envW : GateEnv :=
  { pending := some pW, inFlight := false, git := gitW,
    pushRemote := "origin", pushBranch := "main" }

/-- Gate environment with a pending entry while the in-flight guard is
already held by another evaluation. -/
def envC2 : GateEnv :=
  { pending := some { message := "m", createdAt := 0 },
    inFlight := true, git := gitW, pushRemote := "origin", pushBranch := "main" }

/-- A candidate runner for which every candidate fails with `not-found`,
with the error message naming the candidate (as in the source, where each
`not-found` error names the path that was tried). -/
def runCEx : String → Except CodexCliError String := fun c =>
  if c = "cand-a" then
    Except.error
      { code := CodexCliErrorCode.notFound,
        message := "Codex CLI was not found at \"cand-a\"." }
  else
    Except.error
      { code := CodexCliErrorCode.notFound,
        message := "Codex CLI was not found at \"cand-b\"." }

/-- A candidate runner where candidate `a` fails with `not-found` and
candidate `b` fails with `timeout`. -/
def runW : String → Except CodexCliError String := fun c =>
  if c = "a" then
    Except.error { code := CodexCliErrorCode.notFound, message := "nf-a" }
  else if c = "b" then
    Except.error { code := CodexCliErrorCode.timeout, message := "to-b" }
  else
    Except.error { code := CodexCliErrorCode.notFound, message := "nf-c" }

/-- A diff-collection result whose composed text is empty. -/
def dEmpty : DiffCollectResult :=
  { diffText := "", trackedDiff := "", untrackedFiles := [], wasTruncated := false }

/-- A diff-collection result with a non-blank composed text. -/
def dNonempty : DiffCollectResult :=
  { diffText := "diff body", trackedDiff := "diff body",
    untrackedFiles := [], wasTruncated := false }

/-- Orchestrator environment where diff collection succeeds with an empty
composed diff while an older pending entry exists. -/
def genEnvC9 : GenEnv :=
  { repoResolved := true,
    pendingBefore := some { message := "old message", createdAt := 5 },
    diffOutcome := Except.ok dEmpty,
    genOutcome := Except.error { code := CodexCliErrorCode.timeout, message := "t" },
    now := 10,
    autoCommitAfterGenerate := true,
    stageOutcome := Except.ok (),
    commitOutcome := Except.ok (),
    inFlight := false,
    git := gitW,
    pushRemote := "origin",
    pushBranch := "main" }

/-- Orchestrator environment where diff collection succeeds with a
non-blank diff, an older pending entry exists, and generation fails. -/
def genEnvC10 : GenEnv :=
  { repoResolved := true,
    pendingBefore := some { message := "old message", createdAt := 5 },
    diffOutcome := Except.ok dNonempty,
    genOutcome := Except.error { code := CodexCliErrorCode.timeout, message := "t" },
    now := 10,
    autoCommitAfterGenerate := true,
    stageOutcome := Except.ok (),
    commitOutcome := Except.ok (),
    inFlight := false,
    git := gitW,
    pushRemote := "origin",
    pushBranch := "main" }

/-! ## Helper lemmas -/

theorem string_length_data (s : String) : s.length = s.data.length := rfl

theorem string_mk_append (l m : List Char) :
    String.mk l ++ String.mk m = String.mk (l ++ m) := rfl

theorem string_eq_empty_of_length (s : String) (h : s.length = 0) : s = "" := by
  cases s with
  | mk l =>
    cases l with
    | nil => rfl
    | cons c cs => simp [string_length_data] at h

theorem string_ne_empty_iff (s : String) : s ≠ "" ↔ 0 < s.length := by
  constructor
  · intro h
    rcases Nat.eq_zero_or_pos s.length with h0 | hp
    · exact absurd (string_eq_empty_of_length s h0) h
    · exact hp
  · intro h he
    subst he
    exact absurd h (by decide)

theorem truncate_text_data_of_lt (s : String) (cap : Nat) (h : cap < s.length) :
    (truncateDiffText s cap).text.data = s.data.take cap ++ truncationMarker.data := by
  unfold truncateDiffText
  rw [if_neg (by omega)]
  rfl

theorem truncate_text_length_of_lt (s : String) (cap : Nat) (h : cap < s.length) :
    (truncateDiffText s cap).text.length = cap + truncationMarker.length := by
  rw [string_length_data, truncate_text_data_of_lt s cap h, List.length_append,
    List.length_take, string_length_data truncationMarker]
  rw [string_length_data] at h
  omega

theorem truncate_of_le (s : String) (cap : Nat) (h : s.length ≤ cap) :
    truncateDiffText s cap = { text := s, wasTruncated := false } := by
  unfold truncateDiffText
  rw [if_pos h]

theorem truncate_wasTruncated_of_lt (s : String) (cap : Nat) (h : cap < s.length) :
    (truncateDiffText s cap).wasTruncated = true := by
  unfold truncateDiffText
  rw [if_neg (by omega)]

theorem truncate_text_length_le (s : String) (cap : Nat) :
    (truncateDiffText s cap).text.length ≤ cap + truncationMarker.length := by
  rcases le_or_lt s.length cap with h | h
  · rw [truncate_of_le s cap h]
    calc s.length ≤ cap := h
    _ ≤ cap + truncationMarker.length := Nat.le_add_right _ _
  · rw [truncate_text_length_of_lt s cap h]

theorem truncate_marker_appended (s : String) (cap : Nat) (h : cap < s.length) :
    ∃ pre, (truncateDiffText s cap).text = pre ++ truncationMarker ∧
      pre.length = cap := by
  refine ⟨String.mk (s.data.take cap), ?_, ?_⟩
  · unfold truncateDiffText
    rw [if_neg (by omega)]
  · rw [string_length_data]
    show (s.data.take cap).length = cap
    rw [List.length_take]
    rw [string_length_data] at h
    omega

theorem dropLeadingQuotes_eq_dropWhile (l : List Char) :
    dropLeadingQuotes l = l.dropWhile isQuoteChar := by
  induction l with
  | nil => rfl
  | cons c rest ih =>
    rw [List.dropWhile_cons]
    unfold dropLeadingQuotes
    by_cases h : isQuoteChar c
    · rw [if_pos h, if_pos h, ih]
    · rw [if_neg h, if_neg h]

theorem stripQuotesBothEnds_eq (s : String) :
    stripQuotesBothEnds s = stripQuoteRuns s := by
  unfold stripQuotesBothEnds stripQuoteRuns
  rw [dropLeadingQuotes_eq_dropWhile, dropLeadingQuotes_eq_dropWhile]

theorem firstNonBlankTrimmedLine_eq (ls : List String) :
    firstNonBlankTrimmedLine ls =
      ((ls.map trimJS).find? (fun line => decide (0 < line.length))).getD "" := by
  induction ls with
  | nil => rfl
  | cons l rest ih =>
    rw [List.map_cons]
    by_cases h : trimJS l = ""
    · rw [List.find?_cons_of_neg _ (by rw [h]; decide)]
      unfold firstNonBlankTrimmedLine
      rw [if_pos h, ih]
    · rw [List.find?_cons_of_pos _ (by
        have := (string_ne_empty_iff (trimJS l)).mp h
        simpa using this)]
      unfold firstNonBlankTrimmedLine
      rw [if_neg h]
      rfl

theorem gateBody_eq_resolve (env : GateEnv) (pending : PendingGeneratedCommit) :
    gateBody env pending =
      match resolveLatestCommit env.git with
      | none => (false, none)
      | some latest => checkAndPush env pending latest := by
  unfold gateBody resolveLatestCommit
  cases hH : env.git.getCommitHEAD with
  | ok latest => simp only [hH]
  | error e =>
    simp only [hH]
    cases hC : env.git.stateHEADcommit with
    | none => simp only [hC]
    | some h =>
      simp only [hC]
      cases hB : env.git.getCommitByHash h with
      | ok latest => simp only [hB]
      | error e2 => simp only [hB]

theorem tryCandidates_abort (run : String → Except CodexCliError String)
    (cfg : String) :
    ∀ (pre : List String) (acc : Option CodexCliError) (c : String)
      (post : List String) (e : CodexCliError),
      (∀ c' ∈ pre, ∃ e', run c' = Except.error e' ∧
        e'.code = CodexCliErrorCode.notFound) →
      run c = Except.error e → e.code ≠ CodexCliErrorCode.notFound →
      tryCandidates run cfg (pre ++ c :: post) acc = Except.error e := by
  intro pre
  induction pre with
  | nil =>
    intro acc c post e _ hc hcode
    simp only [List.nil_append]
    unfold tryCandidates
    rw [hc]
    simp only [if_neg hcode]
  | cons p pre ih =>
    intro acc c post e hpre hc hcode
    obtain ⟨e', he', hcode'⟩ := hpre p (List.mem_cons_self p pre)
    simp only [List.cons_append]
    unfold tryCandidates
    rw [he']
    simp only [if_pos hcode']
    exact ih (some e') c post e
      (fun c' hc' => hpre c' (List.mem_cons_of_mem p hc')) hc hcode

theorem tryCandidates_ok (run : String → Except CodexCliError String)
    (cfg : String) :
    ∀ (pre : List String) (acc : Option CodexCliError) (c : String)
      (post : List String) (m : String),
      (∀ c' ∈ pre, ∃ e', run c' = Except.error e' ∧
        e'.code = CodexCliErrorCode.notFound) →
      run c = Except.ok m →
      tryCandidates run cfg (pre ++ c :: post) acc = Except.ok m := by
  intro pre
  induction pre with
  | nil =>
    intro acc c post m _ hc
    simp only [List.nil_append]
    unfold tryCandidates
    rw [hc]
  | cons p pre ih =>
    intro acc c post m hpre hc
    obtain ⟨e', he', hcode'⟩ := hpre p (List.mem_cons_self p pre)
    simp only [List.cons_append]
    unfold tryCandidates
    rw [he']
    simp only [if_pos hcode']
    exact ih (some e') c post m
      (fun c' hc' => hpre c' (List.mem_cons_of_mem p hc')) hc

theorem tryCandidates_last_notFound (run : String → Except CodexCliError String)
    (cfg : String) :
    ∀ (pre : List String) (acc : Option CodexCliError) (c : String),
      (∀ c' ∈ pre ++ [c], ∃ e', run c' = Except.error e' ∧
        e'.code = CodexCliErrorCode.notFound) →
      ∃ e, run c = Except.error e ∧ e.code = CodexCliErrorCode.notFound ∧
        tryCandidates run cfg (pre ++ [c]) acc = Except.error e := by
  intro pre
  induction pre with
  | nil =>
    intro acc c h
    obtain ⟨e, he, hcode⟩ := h c (by simp)
    refine ⟨e, he, hcode, ?_⟩
    simp only [List.nil_append]
    unfold tryCandidates
    rw [he]
    simp only [if_pos hcode]
    rfl
  | cons p pre ih =>
    intro acc c h
    obtain ⟨e', he', hcode'⟩ := h p (List.mem_cons_self p _)
    obtain ⟨e, he, hcode, hres⟩ := ih (some e') c
      (fun c' hc' => h c' (List.mem_cons_of_mem p hc'))
    refine ⟨e, he, hcode, ?_⟩
    simp only [List.cons_append]
    unfold tryCandidates
    rw [he']
    simp only [if_pos hcode']
    exact hres

/-! ## Claim theorems -/

/-- C4: for every composed diff text and character cap, if the text's length
exceeds the cap then `truncateDiffText` returns a text whose length equals
cap plus the length of the truncation marker and sets `wasTruncated` to
true; if the text's length is at or under the cap, the text is returned
unchanged and `wasTruncated` is false. -/
theorem truncate_diff_text_spec (s : String) (cap : Nat) :
    (cap < s.length →
      (truncateDiffText s cap).text.length = cap + truncationMarker.length ∧
      (truncateDiffText s cap).wasTruncated = true) ∧
    (s.length ≤ cap →
      (truncateDiffText s cap).text = s ∧
      (truncateDiffText s cap).wasTruncated = false) := by
  constructor
  · intro h
    exact ⟨truncate_text_length_of_lt s cap h, truncate_wasTruncated_of_lt s cap h⟩
  · intro h
    rw [truncate_of_le s cap h]
    exact ⟨rfl, rfl⟩

/-- Witness for C4 at concrete inputs: a 6-character text against cap 3 is
truncated to length 3 + 13, and a 2-character text against cap 3 is
returned unchanged. -/
theorem truncate_diff_text_spec_witness :
    (3 < String.length "abcdef" ∧
      (truncateDiffText "abcdef" 3).text.length = 3 + truncationMarker.length ∧
      (truncateDiffText "abcdef" 3).wasTruncated = true) ∧
    (String.length "ab" ≤ 3 ∧
      (truncateDiffText "ab" 3).text = "ab" ∧
      (truncateDiffText "ab" 3).wasTruncated = false) :=
  ⟨⟨by decide, (truncate_diff_text_spec "abcdef" 3).1 (by decide)⟩,
   ⟨by decide, (truncate_diff_text_spec "ab" 3).2 (by decide)⟩⟩

/-- C5 (as stated) is false: the collector appends the truncation marker
after cutting at the cap, so a truncated `diffText` has length
cap + 13 > cap. Concretely, a 10-character tracked diff with cap 5 yields
a `diffText` of length 18. -/
theorem collect_diff_budget_counterexample :
    (collectDiffForPrompt "abcdefghij" [] 5).wasTruncated = true ∧
    (collectDiffForPrompt "abcdefghij" [] 5).diffText.length = 18 ∧
    ¬ ((collectDiffForPrompt "abcdefghij" [] 5).diffText.length ≤ 5) := by
  refine ⟨by decide, by decide, by decide⟩

/-- Shape of every collector result: it is determined by the composed
section text `combined` — empty text for an empty composition, otherwise
the truncation of `combined` at the cap. -/
theorem collect_diff_shape (tracked : String) (untracked : List String)
    (cap : Nat) :
    ∃ combined : String,
      collectDiffForPrompt tracked untracked cap =
        (if combined = "" then
          { diffText := "", trackedDiff := tracked,
            untrackedFiles := untracked, wasTruncated := false }
         else
          { diffText := (truncateDiffText combined cap).text,
            trackedDiff := tracked, untrackedFiles := untracked,
            wasTruncated := (truncateDiffText combined cap).wasTruncated }) :=
  ⟨_, rfl⟩

/-- C5 amended: for every `DiffCollectResult` produced by the collector, the
length of `diffText` is at most the configured maximum plus the length of
the truncation marker (13 characters), and when the composed text was cut
the returned text is a cap-length prefix with the truncation marker
appended. -/
theorem collect_diff_budget_amended (tracked : String) (untracked : List String)
    (cap : Nat) :
    (collectDiffForPrompt tracked untracked cap).diffText.length ≤
      cap + truncationMarker.length ∧
    ((collectDiffForPrompt tracked untracked cap).wasTruncated = true →
      ∃ pre, (collectDiffForPrompt tracked untracked cap).diffText =
        pre ++ truncationMarker ∧ pre.length = cap) := by
  obtain ⟨combined, hshape⟩ := collect_diff_shape tracked untracked cap
  rw [hshape]
  split_ifs with h
  · refine ⟨Nat.zero_le _, ?_⟩
    intro hfalse
    simp at hfalse
  · rcases le_or_lt combined.length cap with hle | hlt
    · rw [truncate_of_le combined cap hle]
      refine ⟨le_trans hle (Nat.le_add_right _ _), ?_⟩
      intro hfalse
      simp at hfalse
    · exact ⟨truncate_text_length_le combined cap,
        fun _ => truncate_marker_appended combined cap hlt⟩

/-- Witness for the amended C5 at concrete inputs: a 10-character tracked
diff against cap 5 stays within 5 + 13 characters, and its truncated text
is a 5-character prefix followed by the marker. -/
theorem collect_diff_budget_amended_witness :
    (collectDiffForPrompt "abcdefghij" [] 5).diffText.length ≤
      5 + truncationMarker.length ∧
    (∃ pre, (collectDiffForPrompt "abcdefghij" [] 5).diffText =
      pre ++ truncationMarker ∧ pre.length = 5) :=
  ⟨(collect_diff_budget_amended "abcdefghij" [] 5).1,
   (collect_diff_budget_amended "abcdefghij" [] 5).2 (by decide)⟩

/-- C6: when the subprocess was killed because the timeout elapsed, the
result of the close-handler classification is an error of kind `timeout`,
regardless of the exit code, of any buffered stderr/stdout output, and of
whether a completed agent-message event had been observed; in particular no
success value is ever returned. -/
theorem codex_timeout_classification (timeoutMs : Nat) (model : String)
    (code : Option Int) (stderrRaw stdoutRaw : String)
    (lastAgentMessage : Option String) :
    classifyCloseOutcome true timeoutMs model code stderrRaw stdoutRaw
        lastAgentMessage =
      Except.error
        { code := CodexCliErrorCode.timeout,
          message := "Codex generation timed out after " ++ toString timeoutMs ++
            " ms." } ∧
    ∀ m, classifyCloseOutcome true timeoutMs model code stderrRaw stdoutRaw
        lastAgentMessage ≠ Except.ok m := by
  refine ⟨rfl, ?_⟩
  intro m hm
  rw [show classifyCloseOutcome true timeoutMs model code stderrRaw stdoutRaw
      lastAgentMessage =
    Except.error
      { code := CodexCliErrorCode.timeout,
        message := "Codex generation timed out after " ++ toString timeoutMs ++
          " ms." } from rfl] at hm
  exact Except.noConfusion hm

/-- C7 (as stated) is false: the normalization strips entire runs of
leading/trailing quote characters, not one layer. On the agent-message
text consisting of `fix` wrapped in two double quotes on each side, the
code yields `fix`, while stripping one layer as the claim describes would
yield `fix` still wrapped in one pair of quotes. -/
theorem normalize_quote_stripping_counterexample :
    normalizeGeneratedMessage "\"\"fix\"\"" = "fix" ∧
    claimNormalize "\"\"fix\"\"" = "\"fix\"" ∧
    normalizeGeneratedMessage "\"\"fix\"\"" ≠ claimNormalize "\"\"fix\"\"" := by
  refine ⟨by decide, by decide, by decide⟩

/-- C7 amended: the normalized message is the first non-blank line of the
agent-message text (each line trimmed of surrounding whitespace), with all
leading and trailing quote characters stripped (entire runs, not one
layer) and the result trimmed again; and on a zero exit without timeout,
whenever this normalization is non-empty, the close-handler classification
succeeds with exactly that normalized message. -/
theorem normalize_generated_message_amended :
    (∀ raw, normalizeGeneratedMessage raw = amendedNormalize raw) ∧
    (∀ (timeoutMs : Nat) (model stderrRaw stdoutRaw raw : String),
      normalizeGeneratedMessage raw ≠ "" →
      classifyCloseOutcome false timeoutMs model (some 0) stderrRaw stdoutRaw
          (some raw) = Except.ok (normalizeGeneratedMessage raw)) := by
  constructor
  · intro raw
    unfold normalizeGeneratedMessage amendedNormalize
    rw [firstNonBlankTrimmedLine_eq, stripQuotesBothEnds_eq]
  · intro timeoutMs model stderrRaw stdoutRaw raw hne
    unfold classifyCloseOutcome
    rw [if_neg (by simp), if_neg (by simp)]
    simp only []
    rw [if_neg hne]

/-- Witness for the amended C7 on the spec's example shape: the text
`"  fix: bar  "` preceded and followed by newlines normalizes to
`fix: bar` under both descriptions, and a zero-exit close with that
agent message succeeds with the normalized message. -/
theorem normalize_generated_message_amended_witness :
    normalizeGeneratedMessage "\n  fix: bar  \n" =
      amendedNormalize "\n  fix: bar  \n" ∧
    classifyCloseOutcome false 90000 "gpt-5.3-codex" (some 0) "" ""
        (some "\n  fix: bar  \n") =
      Except.ok (normalizeGeneratedMessage "\n  fix: bar  \n") :=
  ⟨normalize_generated_message_amended.1 "\n  fix: bar  \n",
   normalize_generated_message_amended.2 90000 "gpt-5.3-codex" "" ""
     "\n  fix: bar  \n" (by decide)⟩

/-- When the latest commit cannot be resolved, the gate body skips. -/
theorem gateBody_none (env : GateEnv) (p : PendingGeneratedCommit)
    (h : resolveLatestCommit env.git = none) : gateBody env p = (false, none) := by
  rw [gateBody_eq_resolve env p, h]

/-- When the latest commit resolves, the gate body is the message/branch
check on it. -/
theorem gateBody_some (env : GateEnv) (p : PendingGeneratedCommit)
    (latest : GitCommitM) (h : resolveLatestCommit env.git = some latest) :
    gateBody env p = checkAndPush env p latest := by
  rw [gateBody_eq_resolve env p, h]

/-- The message/branch check written as nested conditionals. -/
theorem checkAndPush_eq (env : GateEnv) (p : PendingGeneratedCommit)
    (latest : GitCommitM) :
    checkAndPush env p latest =
      (if firstLineJS latest.message ≠ trimJS p.message then (false, none)
       else if env.git.stateHEADname.getD "" ≠ env.pushBranch then (false, none)
       else (true, some (env.pushRemote, env.pushBranch, false))) := rfl

/-- The gate with a pending entry and a free guard runs the gate body and
always ends cleared. -/
theorem handleCommitEvent_eq_body (env : GateEnv) (p : PendingGeneratedCommit)
    (hp : env.pending = some p) (hf : env.inFlight = false) :
    handleCommitEvent env =
      { pushInvoked := (gateBody env p).1, pushArgs := (gateBody env p).2,
        pendingAfter := none, inFlightAfter := false } := by
  unfold handleCommitEvent
  rw [hp]
  simp only [hf, if_neg Bool.false_ne_true]

/-- C1: for a commit event with a pending message and no gate evaluation in
flight, the push operation is invoked if and only if a latest commit can
be resolved whose message's first line (trimmed) equals the trimmed
pending message and the current branch name equals the configured target
branch; and whenever push is invoked it is invoked with the configured
remote and branch and `setUpstream = false`, while in every other case no
push arguments are produced. -/
theorem commit_gate_push_iff (env : GateEnv) (p : PendingGeneratedCommit)
    (hp : env.pending = some p) (hf : env.inFlight = false) :
    ((handleCommitEvent env).pushInvoked = true ↔
      ∃ latest, resolveLatestCommit env.git = some latest ∧
        firstLineJS latest.message = trimJS p.message ∧
        env.git.stateHEADname.getD "" = env.pushBranch) ∧
    (handleCommitEvent env).pushArgs =
      (if (handleCommitEvent env).pushInvoked then
        some (env.pushRemote, env.pushBranch, false)
       else none) := by
  have hev := handleCommitEvent_eq_body env p hp hf
  cases hr : resolveLatestCommit env.git with
  | none =>
    rw [hev, gateBody_none env p hr]
    refine ⟨⟨fun hfalse => absurd hfalse (by decide), ?_⟩, rfl⟩
    rintro ⟨latest, hlatest, -⟩
    exact Option.noConfusion hlatest
  | some latest =>
    rw [hev, gateBody_some env p latest hr, checkAndPush_eq]
    by_cases h1 : firstLineJS latest.message ≠ trimJS p.message
    · rw [if_pos h1]
      refine ⟨⟨fun hfalse => absurd hfalse (by decide), ?_⟩, rfl⟩
      rintro ⟨latest', hlatest', hmsg', -⟩
      injection hlatest' with he
      exact (h1 (he ▸ hmsg')).elim
    · rw [if_neg h1]
      by_cases h2 : env.git.stateHEADname.getD "" ≠ env.pushBranch
      · rw [if_pos h2]
        refine ⟨⟨fun hfalse => absurd hfalse (by decide), ?_⟩, rfl⟩
        rintro ⟨latest', -, -, hbr'⟩
        exact (h2 hbr').elim
      · rw [if_neg h2]
        exact ⟨⟨fun _ => ⟨latest, rfl, not_not.mp h1, not_not.mp h2⟩,
          fun _ => rfl⟩, rfl⟩

/-- Witness for C1 at a concrete environment: pending message `fix stuff`,
latest commit message first line `fix stuff`, current branch `main`,
target branch `main`. -/
theorem commit_gate_push_iff_witness :
    (envW.pending = some pW ∧ envW.inFlight = false) ∧
    (((handleCommitEvent envW).pushInvoked = true ↔
      ∃ latest, resolveLatestCommit envW.git = some latest ∧
        firstLineJS latest.message = trimJS pW.message ∧
        envW.git.stateHEADname.getD "" = envW.pushBranch) ∧
    (handleCommitEvent envW).pushArgs =
      (if (handleCommitEvent envW).pushInvoked then
        some (envW.pushRemote, envW.pushBranch, false)
       else none)) :=
  ⟨⟨rfl, rfl⟩, commit_gate_push_iff envW pW rfl rfl⟩

/-- C2 (as stated) is false: a gate invocation that finds the in-flight
guard already held returns before the `try`/`finally` block, so the
pending entry survives and the guard stays held. -/
theorem commit_gate_cleanup_counterexample :
    (handleCommitEvent envC2).pendingAfter =
      some { message := "m", createdAt := 0 } ∧
    (handleCommitEvent envC2).inFlightAfter = true ∧
    ¬ ((handleCommitEvent envC2).pendingAfter = none ∧
       (handleCommitEvent envC2).inFlightAfter = false) := by
  refine ⟨by decide, by decide, by decide⟩

/-- C2 amended: on every exit path of a gate evaluation that proceeds past
the in-flight guard (the guard was not already held), including the early
returns and failure paths inside the `try` block, the pending entry is
cleared and the guard is released; an invocation that finds the guard
already held returns leaving the pending entry and the guard exactly as
they were. -/
theorem commit_gate_cleanup_amended (env : GateEnv) :
    (env.inFlight = false →
      (handleCommitEvent env).pendingAfter = none ∧
      (handleCommitEvent env).inFlightAfter = false) ∧
    (env.inFlight = true →
      (handleCommitEvent env).pendingAfter = env.pending ∧
      (handleCommitEvent env).inFlightAfter = env.inFlight) := by
  obtain ⟨pend, fl, git, remote, branch⟩ := env
  cases fl with
  | false =>
    refine ⟨fun _ => ?_, fun hf => Bool.noConfusion hf⟩
    cases pend with
    | none => exact ⟨rfl, rfl⟩
    | some p => exact ⟨rfl, rfl⟩
  | true =>
    refine ⟨fun hf => Bool.noConfusion hf, fun _ => ?_⟩
    cases pend with
    | none => exact ⟨rfl, rfl⟩
    | some p => exact ⟨rfl, rfl⟩

/-- Witness for the amended C2 at concrete environments: an invocation
that acquires the guard clears the pending entry and releases the guard,
and an invocation that finds the guard held leaves both untouched. -/
theorem commit_gate_cleanup_amended_witness :
    ((handleCommitEvent envW).pendingAfter = none ∧
      (handleCommitEvent envW).inFlightAfter = false) ∧
    ((handleCommitEvent envC2).pendingAfter = envC2.pending ∧
      (handleCommitEvent envC2).inFlightAfter = envC2.inFlight) :=
  ⟨(commit_gate_cleanup_amended envW).1 rfl,
   (commit_gate_cleanup_amended envC2).2 rfl⟩

/-- C8: a commit notification arriving while the per-repository in-flight
guard is held performs no push attempt, and a notification arriving after
a previous gate invocation has returned finds no surviving pending entry
(or a still-held guard) and performs no push attempt either — so for two
rapid duplicate commit notifications for one repository, at most one push
attempt occurs. -/
theorem duplicate_commit_notifications_single_push (env : GateEnv) :
    (handleCommitEvent { env with inFlight := true }).pushInvoked = false ∧
    (handleCommitEvent (gateEnvAfter env)).pushInvoked = false := by
  obtain ⟨pend, fl, git, remote, branch⟩ := env
  constructor
  · cases pend with
    | none => rfl
    | some p => rfl
  · cases pend with
    | none => rfl
    | some p =>
      cases fl with
      | true => rfl
      | false => rfl

/-- C3 (as stated) is false in its "first error" part: the candidate loop
keeps overwriting `lastNotFoundError`, so when every candidate fails with
`not-found` the error surfaced is the one from the last candidate tried,
not the first. With two candidates both failing `not-found` (each error
naming its own path, as in the source), the surfaced error names the
second candidate. -/
theorem codex_candidate_first_error_counterexample :
    generateCommitMessageWithCodex runCEx "cand-a" ["cand-a", "cand-b"] =
      Except.error
        { code := CodexCliErrorCode.notFound,
          message := "Codex CLI was not found at \"cand-b\"." } ∧
    runCEx "cand-a" =
      Except.error
        { code := CodexCliErrorCode.notFound,
          message := "Codex CLI was not found at \"cand-a\"." } ∧
    ({ code := CodexCliErrorCode.notFound,
       message := "Codex CLI was not found at \"cand-b\"." } : CodexCliError) ≠
      { code := CodexCliErrorCode.notFound,
        message := "Codex CLI was not found at \"cand-a\"." } :=
  ⟨rfl, rfl, by decide⟩

/-- C3 amended: the client moves past a candidate only when it fails with
kind `not-found` (a candidate that succeeds after a prefix of `not-found`
failures yields its message; a failure of any other kind surfaces
immediately, regardless of the candidates that would follow); and when
every candidate fails with `not-found`, the error surfaced is the last
such `not-found` error (the one from the final candidate tried). -/
theorem codex_candidate_fallthrough_amended
    (run : String → Except CodexCliError String) (cfg : String) :
    (∀ (pre post : List String) (c m : String),
      (∀ c' ∈ pre, ∃ e', run c' = Except.error e' ∧
        e'.code = CodexCliErrorCode.notFound) →
      run c = Except.ok m →
      generateCommitMessageWithCodex run cfg (pre ++ c :: post) =
        Except.ok m) ∧
    (∀ (pre post : List String) (c : String) (e : CodexCliError),
      (∀ c' ∈ pre, ∃ e', run c' = Except.error e' ∧
        e'.code = CodexCliErrorCode.notFound) →
      run c = Except.error e → e.code ≠ CodexCliErrorCode.notFound →
      generateCommitMessageWithCodex run cfg (pre ++ c :: post) =
        Except.error e) ∧
    (∀ (pre : List String) (c : String),
      (∀ c' ∈ pre ++ [c], ∃ e', run c' = Except.error e' ∧
        e'.code = CodexCliErrorCode.notFound) →
      ∃ e, run c = Except.error e ∧
        generateCommitMessageWithCodex run cfg (pre ++ [c]) =
          Except.error e) := by
  refine ⟨?_, ?_, ?_⟩
  · intro pre post c m hpre hc
    exact tryCandidates_ok run cfg pre none c post m hpre hc
  · intro pre post c e hpre hc hcode
    exact tryCandidates_abort run cfg pre none c post e hpre hc hcode
  · intro pre c h
    obtain ⟨e, he, -, hres⟩ := tryCandidates_last_notFound run cfg pre none c h
    exact ⟨e, he, hres⟩

/-- Witness for the amended C3 at concrete runners: a non-`not-found`
failure (`timeout` on candidate `b`) surfaces immediately after a
`not-found` prefix, and with all candidates failing `not-found` the last
candidate's error surfaces. -/
theorem codex_candidate_fallthrough_amended_witness :
    generateCommitMessageWithCodex runW "a" (["a"] ++ "b" :: ["c"]) =
      Except.error { code := CodexCliErrorCode.timeout, message := "to-b" } ∧
    (∃ e, runCEx "cand-b" = Except.error e ∧
      generateCommitMessageWithCodex runCEx "cand-a" (["cand-a"] ++ ["cand-b"]) =
        Except.error e) :=
  ⟨(codex_candidate_fallthrough_amended runW "a").2.1 ["a"] ["c"] "b"
      { code := CodexCliErrorCode.timeout, message := "to-b" }
      (by
        intro c' hc'
        rw [List.mem_singleton] at hc'
        subst hc'
        exact ⟨_, rfl, rfl⟩)
      rfl (by decide),
   (codex_candidate_fallthrough_amended runCEx "cand-a").2.2 ["cand-a"] "cand-b"
      (by
        intro c' hc'
        have hq : c' = "cand-a" ∨ c' = "cand-b" := by simpa using hc'
        rcases hq with rfl | rfl
        · exact ⟨_, rfl, rfl⟩
        · exact ⟨_, rfl, rfl⟩)⟩

/-- C9: when diff collection succeeds with an empty composed `diffText`,
the orchestrator stops before the prompt builder and the generator are
invoked, and the pending state for the repository is left exactly as it
was (no pending entry is set). -/
theorem empty_diff_stops_orchestrator (env : GenEnv) (d : DiffCollectResult)
    (hd : env.diffOutcome = Except.ok d) (he : d.diffText = "") :
    (handleGenerateCommand env).prompt = none ∧
    (handleGenerateCommand env).generatorInvoked = false ∧
    (handleGenerateCommand env).pendingAfter = env.pendingBefore := by
  unfold handleGenerateCommand
  cases hr : env.repoResolved with
  | false => exact ⟨rfl, rfl, rfl⟩
  | true =>
    rw [hd]
    simp only [Bool.not_true, Bool.false_eq_true, if_false, he]
    exact ⟨rfl, rfl, rfl⟩

/-- Witness for C9 at a concrete environment with an empty composed diff
and an older pending entry: the prompt builder and generator are never
reached and the older pending entry is left in place. -/
theorem empty_diff_stops_orchestrator_witness :
    (genEnvC9.diffOutcome = Except.ok dEmpty ∧ dEmpty.diffText = "") ∧
    ((handleGenerateCommand genEnvC9).prompt = none ∧
      (handleGenerateCommand genEnvC9).generatorInvoked = false ∧
      (handleGenerateCommand genEnvC9).pendingAfter = genEnvC9.pendingBefore) :=
  ⟨⟨rfl, rfl⟩, empty_diff_stops_orchestrator genEnvC9 dEmpty rfl rfl⟩

/-- C10: whenever the generate command fails after diff collection
succeeded with a non-blank diff — the generator fails, or (with
auto-commit enabled) staging or committing fails — the pending entry for
the repository is absent afterwards, including any entry recorded by an
earlier successful generation. -/
theorem generate_failure_clears_pending (env : GenEnv) (d : DiffCollectResult)
    (hr : env.repoResolved = true)
    (hd : env.diffOutcome = Except.ok d)
    (hne : trimJS d.diffText ≠ "")
    (hfail : (∃ e, env.genOutcome = Except.error e) ∨
             (env.autoCommitAfterGenerate = true ∧
               ((∃ e, env.stageOutcome = Except.error e) ∨
                (∃ e, env.commitOutcome = Except.error e)))) :
    (handleGenerateCommand env).pendingAfter = none := by
  unfold handleGenerateCommand
  rw [hr, hd]
  simp only [Bool.not_true, Bool.false_eq_true, if_false, if_neg hne]
  cases hg : env.genOutcome with
  | error e => rfl
  | ok m =>
    rcases hfail with ⟨e, hge⟩ | ⟨hauto, hrest⟩
    · rw [hg] at hge
      exact Except.noConfusion hge
    · rw [hauto]
      simp only [Bool.not_true, Bool.false_eq_true, if_false]
      cases hs : env.stageOutcome with
      | error e => rfl
      | ok u =>
        cases hc : env.commitOutcome with
        | error e => rfl
        | ok v =>
          rcases hrest with ⟨e, hse⟩ | ⟨e, hce⟩
          · rw [hs] at hse
            exact Except.noConfusion hse
          · rw [hc] at hce
            exact Except.noConfusion hce

/-- Witness for C10 at a concrete environment: a non-blank diff, an older
pending entry, and a failing generator leave no pending entry behind. -/
theorem generate_failure_clears_pending_witness :
    (genEnvC10.repoResolved = true ∧
      genEnvC10.diffOutcome = Except.ok dNonempty ∧
      trimJS dNonempty.diffText ≠ "" ∧
      (∃ e, genEnvC10.genOutcome = Except.error e)) ∧
    (handleGenerateCommand genEnvC10).pendingAfter = none :=
  ⟨⟨rfl, rfl, by decide, ⟨_, rfl⟩⟩,
   generate_failure_clears_pending genEnvC10 dNonempty rfl rfl (by decide)
     (Or.inl ⟨_, rfl⟩)⟩
